import Mathlib

/-!
Verification of the Billboard India chart scraper (`billboard_scraper.py`).

The development shallowly embeds the scraper's pure extraction logic:

* Python string primitives (`strip`, `isdigit`, `istitle`, `split`,
  whitespace collapsing via `re.sub(r"\s+", " ", ...)`) are modelled over
  `String`/`List Char`, restricted to ASCII text.
* The parsed HTML document (`BeautifulSoup`) is modelled as a tree of
  element and text nodes; `find` / `find_all` / `find_next` / `get_text`
  are modelled over a preorder flattening of the tree that records each
  node's parent, mirroring BeautifulSoup's document-order traversal.
* `scrape_billboard_india` (primary structural strategy plus the
  less-than-ten fallback policy), `scrape_billboard_alternative`
  (text-scan fallback), the trend classification of `create_html_table`,
  and the delivery decision of `main` are translated function by function.
-/

/-! ## Python string primitives (ASCII fragment) -/

/-- Python `\s` / `str.isspace` for the ASCII range:
space, tab, newline, carriage return, vertical tab, form feed. -/
def pyIsSpace (c : Char) : Bool :=
  c == ' ' || c == '\t' || c == '\n' || c == '\r' ||
  c == Char.ofNat 11 || c == Char.ofNat 12

/-- An ASCII decimal digit. -/
def isDigitA (c : Char) : Bool := '0' ≤ c && c ≤ '9'

/-- Python `str.isdigit` on ASCII text: nonempty and all decimal digits. -/
def pyIsDigit (s : String) : Bool :=
  !s.toList.isEmpty && s.toList.all isDigitA

/-- Python `int(...)` on a digit string (most-significant digit first). -/
def pyToNat (s : String) : Nat :=
  s.toList.foldl (fun acc c => acc * 10 + (c.toNat - '0'.toNat)) 0

/-- Drop leading whitespace characters. -/
def stripFront (l : List Char) : List Char := l.dropWhile pyIsSpace

/-- Drop trailing whitespace characters. -/
def stripBack : List Char → List Char
  | [] => []
  | c :: cs =>
    let r := stripBack cs
    if r.isEmpty && pyIsSpace c then [] else c :: r

/-- Python `str.strip()`: remove leading and trailing whitespace. -/
def pyStrip (s : String) : String := String.mk (stripBack (stripFront s.toList))

/-- Replace every whitespace run by a single space
(`re.sub(r"\s+", " ", s)`); the flag records whether the previous
character belonged to a whitespace run already rewritten. -/
def collapseAux : Bool → List Char → List Char
  | _, [] => []
  | prevWs, c :: cs =>
    if pyIsSpace c then
      (if prevWs then collapseAux true cs else ' ' :: collapseAux true cs)
    else c :: collapseAux false cs

/-- `re.sub(r"\s+", " ", s).strip()` — the scraper's normalization of
titles and artists (lines 91-92 of the source). -/
def collapseWS (s : String) : String :=
  String.mk (stripBack (stripFront (collapseAux false s.toList)))

/-- ASCII uppercase letter. -/
def isUpperA (c : Char) : Bool := 'A' ≤ c && c ≤ 'Z'

/-- ASCII lowercase letter. -/
def isLowerA (c : Char) : Bool := 'a' ≤ c && c ≤ 'z'

/-- Python `str.istitle` on ASCII text: uppercase letters only follow
uncased characters, lowercase letters only follow cased ones, and at
least one cased character occurs.  Arguments: remaining characters,
previous-character-cased flag, seen-a-cased-character flag. -/
def istitleAux : List Char → Bool → Bool → Bool
  | [], _, seen => seen
  | c :: cs, prev, seen =>
    if isUpperA c then (if prev then false else istitleAux cs true true)
    else if isLowerA c then (if prev then istitleAux cs true true else false)
    else istitleAux cs false seen

/-- Python `str.istitle` (ASCII). -/
def pyIstitle (s : String) : Bool := istitleAux s.toList false false

/-- Python `str.startswith`. -/
def pyStartsWith (s p : String) : Bool := p.toList.isPrefixOf s.toList

/-- Whether `s` contains character `c` (Python `c in s`). -/
def strContainsChar (s : String) (c : Char) : Bool := s.toList.contains c

/-- Python `str.split()` with no argument: split on whitespace runs,
discarding empty fields.  The accumulator holds the current field in
reverse order. -/
def splitWsAux : List Char → List Char → List String
  | [], acc => if acc.isEmpty then [] else [String.mk acc.reverse]
  | c :: cs, acc =>
    if pyIsSpace c then
      (if acc.isEmpty then splitWsAux cs []
       else String.mk acc.reverse :: splitWsAux cs [])
    else splitWsAux cs (c :: acc)

/-- Python `str.split()`. -/
def pySplitWs (s : String) : List String := splitWsAux s.toList []

/-- Python `str.split("\n")`: split on newlines, keeping empty fields. -/
def splitNlAux : List Char → List Char → List String
  | [], acc => [String.mk acc.reverse]
  | c :: cs, acc =>
    if c == '\n' then String.mk acc.reverse :: splitNlAux cs []
    else splitNlAux cs (c :: acc)

/-- Python `str.split("\n")`. -/
def splitNl (s : String) : List String := splitNlAux s.toList []

/-- Whether `pat` occurs as a contiguous substring of `s`
(`re.search` with a literal pattern). -/
def containsSub (pat : List Char) : List Char → Bool
  | [] => pat.isEmpty
  | c :: cs => pat.isPrefixOf (c :: cs) || containsSub pat cs

/-- Uppercased character list of a string (for `re.I` matching). -/
def upperList (s : String) : List Char := s.toList.map Char.toUpper

/-- The consecutive naturals `s, s+1, ..., s+n-1`. -/
def natSeq (s : Nat) : Nat → List Nat
  | 0 => []
  | n + 1 => s :: natSeq (s + 1) n

/-! ## Document model -/

/-- A parsed HTML document: element nodes carry a tag name, the list of
CSS classes of their `class` attribute, and their children in document
order; text nodes carry their string (BeautifulSoup `NavigableString`). -/
inductive Node where
  | elem (tag : String) (classes : List String) (children : List Node)
  | textNode (s : String)

mutual
/-- Total number of nodes in a subtree (used to delimit the contiguous
preorder index range a subtree occupies). -/
def sizeNode : Node → Nat
  | Node.textNode _ => 1
  | Node.elem _ _ ch => 1 + sizeChildren ch
/-- Total number of nodes of a forest. -/
def sizeChildren : List Node → Nat
  | [] => 0
  | n :: ns => sizeNode n + sizeChildren ns
end

mutual
/-- BeautifulSoup `get_text()`: concatenation of all text-node strings
of a subtree in document order. -/
def getText : Node → String
  | Node.textNode s => s
  | Node.elem _ _ ch => getTextList ch
/-- `get_text` over a forest. -/
def getTextList : List Node → String
  | [] => ""
  | n :: ns => getText n ++ getTextList ns
end

/-- One entry of the preorder flattening: the node together with the
preorder index of its parent (`none` for the root). -/
structure AnnNode where
  parent : Option Nat
  node : Node

mutual
/-- Preorder flattening of a subtree.  `p` is the parent's preorder
index, `k` the index this subtree's root receives; the result pairs the
flattened entries (in document order, one per node, entry `i` of the
full document list having preorder index `i`) with the next free index. -/
def annotNode (n : Node) (p : Option Nat) (k : Nat) : List AnnNode × Nat :=
  match n with
  | Node.textNode s => ([⟨p, Node.textNode s⟩], k + 1)
  | Node.elem t cs ch =>
    let r := annotChildren ch (some k) (k + 1)
    (⟨p, Node.elem t cs ch⟩ :: r.1, r.2)
/-- Preorder flattening of a forest starting at index `k`. -/
def annotChildren (ns : List Node) (p : Option Nat) (k : Nat) :
    List AnnNode × Nat :=
  match ns with
  | [] => ([], k)
  | n :: rest =>
    let r1 := annotNode n p k
    let r2 := annotChildren rest p r1.2
    (r1.1 ++ r2.1, r2.2)
end

/-- Document-order list of all nodes of the document, each with its
parent's index; the node at list position `k` has preorder index `k`. -/
def annotTree (root : Node) : List AnnNode := (annotNode root none 0).1

/-- Parent index of the node at preorder index `k`. -/
def parentOf (ann : List AnnNode) (k : Nat) : Option Nat :=
  match ann.get? k with
  | some a => a.parent
  | none => none

/-- Preorder indices of the strict descendants of the node at index `g`
(a subtree of `sizeNode` nodes occupies indices `g, g+1, ...,
g+sizeNode-1`). -/
def descIdxs (g : Nat) (row : Node) : List Nat := natSeq (g + 1) (sizeNode row - 1)

/-- `row.find_all(...)`: all strict descendants (document order) of the
node at index `g` satisfying `pred`, with their indices. -/
def findAllInRow (ann : List AnnNode) (g : Nat) (row : Node)
    (pred : Node → Bool) : List (Nat × Node) :=
  (descIdxs g row).filterMap fun k =>
    match ann.get? k with
    | some a => if pred a.node then some (k, a.node) else none
    | none => none

/-- `row.find(...)`: first matching strict descendant. -/
def findInRow (ann : List AnnNode) (g : Nat) (row : Node)
    (pred : Node → Bool) : Option (Nat × Node) :=
  (findAllInRow ann g row pred).head?

/-- `elt.find_next(...)`: the first node strictly after index `k` in
document order satisfying `pred` (BeautifulSoup's `next_elements`
traversal is exactly the preorder continuation). -/
def findNext (ann : List AnnNode) (k : Nat) (pred : Node → Bool) :
    Option (Nat × Node) :=
  (ann.enum.filterMap fun e =>
    if decide (k < e.1) && pred e.2.node then some (e.1, e.2.node) else none).head?

/-- A `<span class="c-label">` element. -/
def isCLabel (n : Node) : Bool :=
  match n with
  | Node.elem t cs _ => t == "span" && cs.contains "c-label"
  | _ => false

/-- An `<h3 class="c-title">` element. -/
def isCTitle (n : Node) : Bool :=
  match n with
  | Node.elem t cs _ => t == "h3" && cs.contains "c-title"
  | _ => false

/-- A `<ul class="o-chart-results-list-row">` element — one chart row. -/
def isChartRow (n : Node) : Bool :=
  match n with
  | Node.elem t cs _ => t == "ul" && cs.contains "o-chart-results-list-row"
  | _ => false

/-- A text node matched by `re.compile(r"LW|Last Week", re.I)` under
`re.search` semantics: its text contains "LW" or "Last Week"
case-insensitively. -/
def isLWText (n : Node) : Bool :=
  match n with
  | Node.textNode s =>
    containsSub ("LW".toList) (upperList s) ||
    containsSub ("LAST WEEK".toList) (upperList s)
  | _ => false

/-- `soup.find_all("ul", class_="o-chart-results-list-row")`: every
chart-row element among the strict descendants of the document root, in
document order, with its preorder index. -/
def chartRows (ann : List AnnNode) : List (Nat × Node) :=
  ann.enum.filterMap fun e =>
    if decide (0 < e.1) && isChartRow e.2.node then some (e.1, e.2.node) else none

/-! ## Chart entries -/

/-- One scraped chart entry (the dict appended at lines 98-103 /
169-174 of the source: keys `Position`, `Song`, `Artist`, `Last Week`). -/
structure ChartEntry where
  position : Nat
  song : String
  artist : String
  lastWeek : String
deriving Repr, DecidableEq

/-! ## Primary strategy (`scrape_billboard_india`, lines 29-117) -/

/-- Tokens skipped by the artist scan (line 60). -/
def tokens3 : List String := ["LW", "PEAK", "WEEKS"]

/-- Non-content tokens skipped by the fallback scan (lines 151, 164). -/
def tokens4 : List String := ["LW", "PEAK", "WEEKS", "-"]

/-- Lines 38-42: the explicit rank read from the first
`span.c-label` of the row, provided its stripped text is numeric. -/
def rowExplicitPos (ann : List AnnNode) (g : Nat) (row : Node) : Option Nat :=
  match findInRow ann g row isCLabel with
  | some (_, n) =>
    let t := pyStrip (getText n)
    if pyIsDigit t then some (pyToNat t) else none
  | none => none

/-- Lines 45-49: raw title text of the row's first `h3.c-title`,
or `"N/A"` when absent. -/
def rowTitle (ann : List AnnNode) (g : Nat) (row : Node) : String :=
  match findInRow ann g row isCTitle with
  | some (_, n) => pyStrip (getText n)
  | none => "N/A"

/-- Lines 53-62: the first `span.c-label` of the row whose stripped text
is nonempty, non-numeric and not one of `LW`/`PEAK`/`WEEKS`. -/
def rowArtistScan (ann : List AnnNode) (g : Nat) (row : Node) : Option String :=
  (findAllInRow ann g row isCLabel).findSome? fun e =>
    let t := pyStrip (getText e.2)
    if t != "" && !pyIsDigit t && !(tokens3.contains t) then some t else none

/-- Lines 65-73: secondary artist attempt — the first `span.c-label`
after the title element's parent in document order, provided its
stripped text is nonempty and non-numeric. -/
def rowArtistFallback (ann : List AnnNode) (g : Nat) (row : Node) : Option String :=
  match findInRow ann g row isCTitle with
  | some (tk, _) =>
    match parentOf ann tk with
    | some pk =>
      match findNext ann pk isCLabel with
      | some (_, n) =>
        let c := pyStrip (getText n)
        if c != "" && !pyIsDigit c then some c else none
      | none => none
    | none => none
  | none => none

/-- Lines 53-73 combined: the artist of a row (`"N/A"` sentinel when the
scan fails, then the secondary attempt). -/
def rowArtist (ann : List AnnNode) (g : Nat) (row : Node) : String :=
  let a1 := (rowArtistScan ann g row).getD "N/A"
  if a1 = "N/A" then (rowArtistFallback ann g row).getD a1 else a1

/-- Lines 80-88, inner loop body: given one `LW`-matching text node (by
its preorder index), look at the first `span.c-label` after that node's
parent in document order; succeed only when its stripped text is
numeric. -/
def lwProbe (ann : List AnnNode) (e : Nat × Node) : Option String :=
  match parentOf ann e.1 with
  | some pk =>
    match findNext ann pk isCLabel with
    | some (_, n) =>
      if pyIsDigit (pyStrip (getText n)) then some (pyStrip (getText n)) else none
    | none => none
  | none => none

/-- Lines 76-88: previous-week position — for each text node of the row
matching `LW`/`Last Week` (case-insensitive), the first `span.c-label`
after that text node's parent is consulted; the first numeric such text
is taken, else the sentinel `"NEW"`. -/
def rowLastWeek (ann : List AnnNode) (g : Nat) (row : Node) : String :=
  ((findAllInRow ann g row isLWText).findSome? (lwProbe ann)).getD "NEW"

/-- Lines 36-103: extraction of one chart row (`i` is the 0-based
enumeration index); `none` when the row is discarded because its
normalized title is `"N/A"` or empty (lines 95-96). -/
def extractRow (ann : List AnnNode) (g : Nat) (row : Node) (i : Nat) :
    Option ChartEntry :=
  if collapseWS (rowTitle ann g row) = "N/A" ∨ collapseWS (rowTitle ann g row) = ""
  then none
  else some ⟨(rowExplicitPos ann g row).getD (i + 1),
             collapseWS (rowTitle ann g row),
             collapseWS (rowArtist ann g row),
             rowLastWeek ann g row⟩

/-- Lines 29-105: the primary structural strategy — the first 20 chart
rows, extracted in order, discarded rows skipped. -/
def primaryExtract (soup : Node) : List ChartEntry :=
  let ann := annotTree soup
  ((chartRows ann).take 20).enum.filterMap fun e =>
    extractRow ann e.2.1 e.2.2 e.1

/-! ## Fallback strategy (`scrape_billboard_alternative`, lines 123-189) -/

/-- Lines 155-157: the fallback's "looks like a song title" test —
contains a parenthesis, or is title-cased as a whole, or has some
title-cased word. -/
def titleShaped (l : String) : Bool :=
  strContainsChar l '(' || pyIstitle l || (pySplitWs l).any pyIstitle

/-- Lines 147-166: the bounded look-ahead window scan.  State: the title
and artist found so far; returns the final pair.  A line equal to a
non-content token or purely numeric is skipped; before a title is found,
a line longer than 3 characters not starting with `http` and
title-shaped becomes the title; afterwards, a line longer than 2
characters becomes the artist and the scan stops. -/
def windowLoop : List String → Option String → Option String →
    Option String × Option String
  | [], t, a => (t, a)
  | l :: ls, t, a =>
    if tokens4.contains l || pyIsDigit l then windowLoop ls t a
    else
      match t with
      | none =>
        if decide (3 < l.length) && !pyStartsWith l "http" then
          (if titleShaped l then windowLoop ls (some l) a
           else windowLoop ls none a)
        else windowLoop ls none a
      | some _ =>
        match a with
        | none =>
          if decide (2 < l.length) then
            (if !pyIsDigit l && !(tokens4.contains l) then (t, some l)
             else windowLoop ls t a)
          else windowLoop ls t a
        | some _ => windowLoop ls t a

/-- Python `artist or "N/A"` (line 172): `None` and the empty string are
falsy. -/
def pyOrNA (a : Option String) : String :=
  match a with
  | some s => if s = "" then "N/A" else s
  | none => "N/A"

/-- Lines 134-185: the anchor-scanning loop.  A line whose numeric value
equals the expected rank opens a 9-line look-ahead window; if the window
yields a title, the entry is emitted (previous position always `"NEW"`)
and the expected rank advances.  Scanning stops past rank 20 or at end
of input. -/
def altLoop : List String → Nat → List ChartEntry
  | [], _ => []
  | l :: ls, position =>
    if 20 < position then []
    else if pyIsDigit l && (pyToNat l == position) then
      match windowLoop (ls.take 9) none none with
      | (some title, a) =>
        if title = "" then altLoop ls position
        else ⟨position, title, pyOrNA a, "NEW"⟩ :: altLoop ls (position + 1)
      | (none, _) => altLoop ls position
    else altLoop ls position

/-- Lines 131-132: the document's flattened text, split on newlines,
each line stripped, empty lines discarded. -/
def linesOf (soup : Node) : List String :=
  ((splitNl (getText soup)).map pyStrip).filter fun l => l != ""

/-- Lines 123-189: the fallback text-scan strategy. -/
def scrape_billboard_alternative (soup : Node) : List ChartEntry :=
  altLoop (linesOf soup) 1

/-! ## Top-level policy, rendering trend, and delivery decision -/

/-- Lines 22-121 of `scrape_billboard_india`: the fetch either fails
(`none`: `requests.RequestException`, including timeout and
`raise_for_status` on non-2xx, line 119) yielding the empty result, or
produces a parsed document; the primary strategy's result is kept only
when it has at least 10 entries, otherwise the fallback strategy's
result is returned as-is (lines 111-117). -/
def scrape_billboard_india (fetched : Option Node) : List ChartEntry :=
  match fetched with
  | none => []
  | some soup =>
    let songs := primaryExtract soup
    if songs.length < 10 then scrape_billboard_alternative soup else songs

/-- Trend classification of `create_html_table` (lines 246-267). -/
inductive Trend where
  | newEntry
  | up
  | down
  | same
  | other
deriving Repr, DecidableEq

/-- Lines 246-267: the rendered last-week indicator — `"NEW"` gets the
new-entry badge; a numeric previous position is compared with the
current position (smaller current position renders as moved up, larger
as moved down, equal as unchanged); anything else is rendered verbatim. -/
def lastWeekTrend (position : Nat) (lastWeek : String) : Trend :=
  if lastWeek = "NEW" then Trend.newEntry
  else if pyIsDigit lastWeek then
    let lastPos := pyToNat lastWeek
    if position < lastPos then Trend.up
    else if lastPos < position then Trend.down
    else Trend.same
  else Trend.other

/-- `main` (lines 381-414), delivery decision only: with a nonempty
scrape the email send is attempted (exit 0 on success, `exit(1)` on
failure); with an empty scrape the process calls `exit(1)` and never
attempts delivery.  Result: (exit code, whether delivery was
attempted). -/
def mainResult (fetched : Option Node) (sendOk : Bool) : Nat × Bool :=
  let songs := scrape_billboard_india fetched
  if songs.isEmpty then (1, false)
  else if sendOk then (0, true) else (1, true)

/-! ## Normal-form predicates for normalized text -/

/-- The first character, if any, is not whitespace. -/
def headNotWs : List Char → Bool
  | [] => true
  | c :: _ => !pyIsSpace c

/-- The last character, if any, is not whitespace. -/
def lastNotWs : List Char → Bool
  | [] => true
  | [c] => !pyIsSpace c
  | _ :: c :: cs => lastNotWs (c :: cs)

/-- No two adjacent whitespace characters. -/
def noWsRun : List Char → Bool
  | [] => true
  | c :: cs => (!pyIsSpace c || headNotWs cs) && noWsRun cs

/-- Every whitespace character is a plain space. -/
def wsOnlySpace (l : List Char) : Bool := l.all fun c => !pyIsSpace c || c == ' '

/-- The spec's "whitespace-collapsed" shape: every whitespace run is a
single plain space and the ends carry no whitespace. -/
def wsCollapsedB (s : String) : Bool :=
  noWsRun s.toList && wsOnlySpace s.toList && headNotWs s.toList && lastNotWs s.toList

/-- The spec's "ends trimmed" shape: no leading or trailing whitespace. -/
def endsTrimmedB (s : String) : Bool :=
  headNotWs s.toList && lastNotWs s.toList

lemma toList_mk (l : List Char) : (String.mk l).toList = l := rfl

lemma wsOnlySpace_cons (c : Char) (l : List Char) :
    wsOnlySpace (c :: l) = ((!pyIsSpace c || c == ' ') && wsOnlySpace l) := rfl

lemma noWsRun_tail {c : Char} {cs : List Char} (h : noWsRun (c :: cs) = true) :
    noWsRun cs = true := by
  simp only [noWsRun, Bool.and_eq_true] at h
  exact h.2

lemma collapseAux_invariants (l : List Char) :
    noWsRun (collapseAux false l) = true ∧ noWsRun (collapseAux true l) = true ∧
    wsOnlySpace (collapseAux false l) = true ∧ wsOnlySpace (collapseAux true l) = true ∧
    headNotWs (collapseAux true l) = true := by
  induction l with
  | nil => simp [collapseAux, noWsRun, wsOnlySpace, headNotWs]
  | cons c cs ih =>
    obtain ⟨ihF, ihT, ihwF, ihwT, ihh⟩ := ih
    by_cases h : pyIsSpace c = true
    · simp only [collapseAux, h, if_true, Bool.false_eq_true, if_false]
      refine ⟨?_, ihT, ?_, ihwT, ihh⟩
      · simp [noWsRun, ihT, ihh]
      · rw [wsOnlySpace_cons]
        simp [ihwT]
    · simp only [collapseAux, h]
      simp only [Bool.false_eq_true, if_false]
      have hrun : noWsRun (c :: collapseAux false cs) = true := by
        simp [noWsRun, ihF, h]
      have hws : wsOnlySpace (c :: collapseAux false cs) = true := by
        rw [wsOnlySpace_cons]
        simp [ihwF, h]
      exact ⟨hrun, hrun, hws, hws, by simp [headNotWs, h]⟩

lemma headNotWs_stripFront (l : List Char) : headNotWs (stripFront l) = true := by
  induction l with
  | nil => simp [stripFront, headNotWs]
  | cons c cs ih =>
    by_cases h : pyIsSpace c = true
    · simpa [stripFront, List.dropWhile_cons, h] using ih
    · simp [stripFront, List.dropWhile_cons, h, headNotWs]

lemma noWsRun_stripFront {l : List Char} (h : noWsRun l = true) :
    noWsRun (stripFront l) = true := by
  induction l with
  | nil => simpa [stripFront] using h
  | cons c cs ih =>
    by_cases hc : pyIsSpace c = true
    · simpa [stripFront, List.dropWhile_cons, hc] using ih (noWsRun_tail h)
    · simpa [stripFront, List.dropWhile_cons, hc] using h

lemma wsOnlySpace_stripFront {l : List Char} (h : wsOnlySpace l = true) :
    wsOnlySpace (stripFront l) = true := by
  induction l with
  | nil => simpa [stripFront] using h
  | cons c cs ih =>
    rw [wsOnlySpace_cons, Bool.and_eq_true] at h
    by_cases hc : pyIsSpace c = true
    · simpa [stripFront, List.dropWhile_cons, hc] using ih h.2
    · rw [stripFront, List.dropWhile_cons, if_neg (by simp [hc])]
      rw [wsOnlySpace_cons, Bool.and_eq_true]
      exact ⟨h.1, h.2⟩

lemma stripBack_cons_shape (c : Char) (cs : List Char) :
    stripBack (c :: cs) = [] ∨ stripBack (c :: cs) = c :: stripBack cs := by
  by_cases h : (stripBack cs).isEmpty && pyIsSpace c
  · left; simp [stripBack, h]
  · right; simp [stripBack, h]

lemma headNotWs_stripBack {l : List Char} (h : headNotWs l = true) :
    headNotWs (stripBack l) = true := by
  cases l with
  | nil => simpa [stripBack] using h
  | cons c cs =>
    rcases stripBack_cons_shape c cs with h2 | h2 <;> rw [h2]
    · simp [headNotWs]
    · simpa [headNotWs] using h

lemma noWsRun_stripBack {l : List Char} (h : noWsRun l = true) :
    noWsRun (stripBack l) = true := by
  induction l with
  | nil => simpa [stripBack] using h
  | cons c cs ih =>
    rcases stripBack_cons_shape c cs with h2 | h2 <;> rw [h2]
    · simp [noWsRun]
    · have htail := noWsRun_tail h
      have hrest := ih htail
      simp only [noWsRun, Bool.and_eq_true] at h ⊢
      refine ⟨?_, hrest⟩
      rcases Bool.or_eq_true_iff.mp h.1 with hc | hhead
      · simp [hc]
      · have : headNotWs (stripBack cs) = true := headNotWs_stripBack hhead
        simp [this]

lemma wsOnlySpace_stripBack {l : List Char} (h : wsOnlySpace l = true) :
    wsOnlySpace (stripBack l) = true := by
  induction l with
  | nil => simpa [stripBack] using h
  | cons c cs ih =>
    rw [wsOnlySpace_cons, Bool.and_eq_true] at h
    rcases stripBack_cons_shape c cs with h2 | h2 <;> rw [h2]
    · simp [wsOnlySpace]
    · rw [wsOnlySpace_cons, Bool.and_eq_true]
      exact ⟨h.1, ih h.2⟩

lemma lastNotWs_cons_of_ne {c : Char} {r : List Char} (h : r ≠ []) :
    lastNotWs (c :: r) = lastNotWs r := by
  cases r with
  | nil => exact absurd rfl h
  | cons b bs => rfl

lemma lastNotWs_stripBack (l : List Char) : lastNotWs (stripBack l) = true := by
  induction l with
  | nil => simp [stripBack, lastNotWs]
  | cons c cs ih =>
    by_cases h : (stripBack cs).isEmpty && pyIsSpace c
    · simp [stripBack, h, lastNotWs]
    · have hshape : stripBack (c :: cs) = c :: stripBack cs := by simp [stripBack, h]
      rw [hshape]
      have hfalse : ((stripBack cs).isEmpty && pyIsSpace c) = false := by
        revert h; cases hb : ((stripBack cs).isEmpty && pyIsSpace c) <;> simp
      rcases Bool.and_eq_false_iff.mp hfalse with he | hc
      · have hne : stripBack cs ≠ [] := by
          intro hnil; rw [hnil] at he; simp at he
        rw [lastNotWs_cons_of_ne hne]; exact ih
      · cases hsb : stripBack cs with
        | nil => simp [lastNotWs, hc]
        | cons b bs =>
          rw [lastNotWs_cons_of_ne (by simp)]
          rw [hsb] at ih; exact ih

lemma wsCollapsed_collapseWS (s : String) : wsCollapsedB (collapseWS s) = true := by
  have inv := collapseAux_invariants s.toList
  have h1 : noWsRun (stripBack (stripFront (collapseAux false s.toList))) = true :=
    noWsRun_stripBack (noWsRun_stripFront inv.1)
  have h2 : wsOnlySpace (stripBack (stripFront (collapseAux false s.toList))) = true :=
    wsOnlySpace_stripBack (wsOnlySpace_stripFront inv.2.2.1)
  have h3 : headNotWs (stripBack (stripFront (collapseAux false s.toList))) = true :=
    headNotWs_stripBack (headNotWs_stripFront _)
  have h4 : lastNotWs (stripBack (stripFront (collapseAux false s.toList))) = true :=
    lastNotWs_stripBack _
  simp only [wsCollapsedB, collapseWS, toList_mk, Bool.and_eq_true]
  exact ⟨⟨⟨h1, h2⟩, h3⟩, h4⟩

lemma endsTrimmed_pyStrip (s : String) : endsTrimmedB (pyStrip s) = true := by
  have h3 : headNotWs (stripBack (stripFront s.toList)) = true :=
    headNotWs_stripBack (headNotWs_stripFront _)
  have h4 : lastNotWs (stripBack (stripFront s.toList)) = true :=
    lastNotWs_stripBack _
  simp only [endsTrimmedB, pyStrip, toList_mk, Bool.and_eq_true]
  exact ⟨h3, h4⟩

/-! ## Facts about `natSeq` -/

lemma natSeq_length (s n : Nat) : (natSeq s n).length = n := by
  induction n generalizing s with
  | zero => rfl
  | succ n ih => simp [natSeq, ih]

lemma le_of_mem_natSeq {s n m : Nat} (h : m ∈ natSeq s n) : s ≤ m := by
  induction n generalizing s with
  | zero => simp [natSeq] at h
  | succ n ih =>
    simp only [natSeq, List.mem_cons] at h
    rcases h with rfl | h
    · exact Nat.le_refl _
    · exact Nat.le_of_succ_le (ih h)

lemma natSeq_nodup (s n : Nat) : (natSeq s n).Nodup := by
  induction n generalizing s with
  | zero => simp [natSeq]
  | succ n ih =>
    simp only [natSeq, List.nodup_cons]
    exact ⟨fun hm => Nat.not_succ_le_self s (le_of_mem_natSeq hm), ih _⟩


/-! ## Facts about the fallback scan -/

/-- A generic inversion principle for `List.findSome?`. -/
lemma findSomeSpec {α β : Type} {l : List α} {f : α → Option β} {b : β}
    (h : l.findSome? f = some b) : ∃ a, a ∈ l ∧ f a = some b := by
  induction l with
  | nil => simp [List.findSome?] at h
  | cons x xs ih =>
    rw [List.findSome?_cons] at h
    cases hx : f x with
    | some y =>
      rw [hx] at h
      simp only [] at h
      exact ⟨x, List.mem_cons_self x xs, by rw [hx]; exact h⟩
    | none =>
      rw [hx] at h
      simp only [] at h
      obtain ⟨a, ha, hfa⟩ := ih h
      exact ⟨a, List.mem_cons_of_mem x ha, hfa⟩

/-- The spec-side acceptance predicate of §4.2 for title lines: not a
non-content token, not purely numeric, longer than 3 characters, no URL
scheme prefix, and title-shaped. -/
def titleAccept (l : String) : Bool :=
  !(tokens4.contains l) && !pyIsDigit l && decide (3 < l.length) &&
  !pyStartsWith l "http" && titleShaped l

lemma windowLoop_fst_some (ws : List String) (t : String) (a : Option String) :
    (windowLoop ws (some t) a).1 = some t := by
  induction ws generalizing a with
  | nil => rfl
  | cons l ls ih =>
    by_cases h1 : l ∈ tokens4 ∨ pyIsDigit l = true
    · simp [windowLoop, h1, ih]
    · cases a with
      | some x => simp [windowLoop, h1, ih]
      | none =>
        by_cases h2 : 2 < l.length
        · by_cases h3 : pyIsDigit l = false ∧ l ∉ tokens4
          · simp [windowLoop, h1, h2, h3]
          · simp [windowLoop, h1, h2, h3, ih]
        · simp [windowLoop, h1, h2, ih]

lemma windowLoop_fst_none (ws : List String) (a : Option String) :
    (windowLoop ws none a).1 = ws.find? titleAccept := by
  induction ws generalizing a with
  | nil => rfl
  | cons l ls ih =>
    by_cases h1 : l ∈ tokens4 ∨ pyIsDigit l = true
    · have hacc : titleAccept l = false := by
        rcases h1 with h | h
        · simp [titleAccept, h]
        · simp [titleAccept, h]
      simp [windowLoop, h1, List.find?_cons, hacc, ih]
    · obtain ⟨htok, hdig'⟩ := not_or.mp h1
      have hdig : pyIsDigit l = false := by
        revert hdig'; cases pyIsDigit l <;> simp
      by_cases h2 : 3 < l.length ∧ pyStartsWith l "http" = false
      · by_cases h3 : titleShaped l = true
        · have hacc : titleAccept l = true := by
            simp [titleAccept, htok, hdig, h2.1, h2.2, h3]
          simp [windowLoop, h1, h2, h3, List.find?_cons, hacc, windowLoop_fst_some]
        · have hacc : titleAccept l = false := by
            have h3f : titleShaped l = false := by
              revert h3; cases titleShaped l <;> simp
            simp [titleAccept, h3f]
          simp [windowLoop, h1, h2, h3, List.find?_cons, hacc, ih]
      · have hacc : titleAccept l = false := by
          rcases Decidable.not_and_iff_or_not.mp h2 with h | h
          · have hlen : ¬ 3 < l.length := h
            simp [titleAccept, hlen]
          · have http : pyStartsWith l "http" = true := by
              revert h; cases pyStartsWith l "http" <;> simp
            simp [titleAccept, http]
        simp [windowLoop, h1, h2, List.find?_cons, hacc, ih]

lemma altLoop_positions (lines : List String) (p : Nat) :
    (altLoop lines p).map (fun e => e.position) =
      natSeq p ((altLoop lines p).length) := by
  induction lines generalizing p with
  | nil => simp [altLoop, natSeq]
  | cons l ls ih =>
    by_cases hp : 20 < p
    · simp [altLoop, hp, natSeq]
    · by_cases hguard : pyIsDigit l = true ∧ (pyToNat l == p) = true
      · cases hw : windowLoop (ls.take 9) none none with
        | mk t a =>
          cases t with
          | some title =>
            by_cases ht : title = ""
            · simpa [altLoop, hp, hguard.1, hguard.2, hw, ht] using ih p
            · simp only [altLoop, hp, if_false, hguard.1, hguard.2, Bool.and_self,
                if_true, hw, ht]
              simp only [List.map_cons, List.length_cons, natSeq]
              exact congrArg (p :: ·) (ih (p + 1))
          | none => simpa [altLoop, hp, hguard.1, hguard.2, hw] using ih p
      · have hguard2 : (pyIsDigit l && (pyToNat l == p)) = false := by
          rcases Decidable.not_and_iff_or_not.mp hguard with h | h
          · have : pyIsDigit l = false := by revert h; cases pyIsDigit l <;> simp
            simp [this]
          · have : (pyToNat l == p) = false := by
              revert h; cases (pyToNat l == p) <;> simp
            simp [this]
        simpa [altLoop, hp, hguard2] using ih p

lemma altLoop_length (lines : List String) (p : Nat) :
    (altLoop lines p).length ≤ 21 - p := by
  induction lines generalizing p with
  | nil => simp [altLoop]
  | cons l ls ih =>
    by_cases hp : 20 < p
    · simp [altLoop, hp]
    · by_cases hguard : pyIsDigit l = true ∧ (pyToNat l == p) = true
      · cases hw : windowLoop (ls.take 9) none none with
        | mk t a =>
          cases t with
          | some title =>
            by_cases ht : title = ""
            · simpa [altLoop, hp, hguard.1, hguard.2, hw, ht] using ih p
            · simp only [altLoop, hp, if_false, hguard.1, hguard.2, Bool.and_self,
                if_true, hw, ht, List.length_cons]
              have := ih (p + 1)
              omega
          | none => simpa [altLoop, hp, hguard.1, hguard.2, hw] using ih p
      · have hguard2 : (pyIsDigit l && (pyToNat l == p)) = false := by
          rcases Decidable.not_and_iff_or_not.mp hguard with h | h
          · have : pyIsDigit l = false := by revert h; cases pyIsDigit l <;> simp
            simp [this]
          · have : (pyToNat l == p) = false := by
              revert h; cases (pyToNat l == p) <;> simp
            simp [this]
        simpa [altLoop, hp, hguard2] using ih p

lemma titleAccept_parts {l : String} (h : titleAccept l = true) :
    l ∉ tokens4 ∧ pyIsDigit l = false ∧ 3 < l.length ∧
    pyStartsWith l "http" = false ∧ titleShaped l = true := by
  simp only [titleAccept, Bool.and_eq_true, Bool.not_eq_true',
    decide_eq_true_eq] at h
  obtain ⟨⟨⟨⟨h1, h2⟩, h3⟩, h4⟩, h5⟩ := h
  refine ⟨?_, h2, h3, h4, h5⟩
  intro hm
  simp [hm] at h1

lemma altLoop_mem {lines : List String} {p : Nat} {e : ChartEntry}
    (h : e ∈ altLoop lines p) :
    e.lastWeek = "NEW" ∧ 3 < e.song.length ∧ e.song ∈ lines := by
  induction lines generalizing p with
  | nil => simp [altLoop] at h
  | cons l ls ih =>
    by_cases hp : 20 < p
    · simp [altLoop, hp] at h
    · by_cases hguard : pyIsDigit l = true ∧ (pyToNat l == p) = true
      · rcases hw : windowLoop (ls.take 9) none none with ⟨t, a⟩
        cases t with
        | some title =>
          by_cases ht : title = ""
          · simp [altLoop, hp, hguard.1, hguard.2, hw, ht] at h
            obtain ⟨h1, h2, h3⟩ := ih h
            exact ⟨h1, h2, List.mem_cons_of_mem _ h3⟩
          · simp only [altLoop, hp, if_false, hguard.1, hguard.2, Bool.and_self,
              if_true, hw, ht] at h
            rcases List.mem_cons.mp h with rfl | hrest
            · have hfind : (ls.take 9).find? titleAccept = some title := by
                have hwl := windowLoop_fst_none (ls.take 9) none
                rw [hw] at hwl
                exact hwl.symm
              have hacc : titleAccept title = true := List.find?_some hfind
              have hmem : title ∈ ls.take 9 := List.mem_of_find?_eq_some hfind
              obtain ⟨_, _, hlen, _, _⟩ := titleAccept_parts hacc
              exact ⟨rfl, hlen,
                List.mem_cons_of_mem _ (List.take_subset 9 ls hmem)⟩
            · obtain ⟨h1, h2, h3⟩ := ih hrest
              exact ⟨h1, h2, List.mem_cons_of_mem _ h3⟩
        | none =>
          simp [altLoop, hp, hguard.1, hguard.2, hw] at h
          obtain ⟨h1, h2, h3⟩ := ih h
          exact ⟨h1, h2, List.mem_cons_of_mem _ h3⟩
      · have hguard2 : (pyIsDigit l && (pyToNat l == p)) = false := by
          rcases Decidable.not_and_iff_or_not.mp hguard with hx | hx
          · have : pyIsDigit l = false := by revert hx; cases pyIsDigit l <;> simp
            simp [this]
          · have : (pyToNat l == p) = false := by
              revert hx; cases (pyToNat l == p) <;> simp
            simp [this]
        simp [altLoop, hp, hguard2] at h
        obtain ⟨h1, h2, h3⟩ := ih h
        exact ⟨h1, h2, List.mem_cons_of_mem _ h3⟩

/-! ## Facts about the primary strategy -/

lemma lwProbe_digit {ann : List AnnNode} {a : Nat × Node} {t : String}
    (h : lwProbe ann a = some t) : pyIsDigit t = true := by
  unfold lwProbe at h
  split at h
  · split at h
    · split at h
      · cases h
        assumption
      · cases h
    · cases h
  · cases h

lemma rowLastWeek_shape (ann : List AnnNode) (g : Nat) (row : Node) :
    pyIsDigit (rowLastWeek ann g row) = true ∨ rowLastWeek ann g row = "NEW" := by
  unfold rowLastWeek
  cases hf : (findAllInRow ann g row isLWText).findSome? (lwProbe ann) with
  | none => right; rfl
  | some t =>
    left
    obtain ⟨a, _, hfa⟩ := findSomeSpec hf
    exact lwProbe_digit hfa

lemma extractRow_some {ann : List AnnNode} {g : Nat} {row : Node} {i : Nat}
    {e : ChartEntry} (h : extractRow ann g row i = some e) :
    e.position = (rowExplicitPos ann g row).getD (i + 1) ∧
    e.song = collapseWS (rowTitle ann g row) ∧
    e.song ≠ "N/A" ∧ e.song ≠ "" ∧
    e.lastWeek = rowLastWeek ann g row := by
  unfold extractRow at h
  split at h
  · cases h
  · rename_i hc
    obtain ⟨h1, h2⟩ := not_or.mp hc
    cases h
    exact ⟨rfl, rfl, h1, h2, rfl⟩

lemma primary_mem {soup : Node} {e : ChartEntry} (h : e ∈ primaryExtract soup) :
    ∃ i g row, extractRow (annotTree soup) g row i = some e := by
  unfold primaryExtract at h
  rw [List.mem_filterMap] at h
  obtain ⟨a, _, hfa⟩ := h
  exact ⟨a.1, a.2.1, a.2.2, hfa⟩

lemma primary_length_le (soup : Node) : (primaryExtract soup).length ≤ 20 := by
  unfold primaryExtract
  calc (((chartRows (annotTree soup)).take 20).enum.filterMap
          (fun e => extractRow (annotTree soup) e.2.1 e.2.2 e.1)).length
      ≤ ((chartRows (annotTree soup)).take 20).enum.length :=
        List.length_filterMap_le _ _
    _ = ((chartRows (annotTree soup)).take 20).length := List.enum_length
    _ ≤ 20 := List.length_take_le _ _

lemma filterMap_enumFrom_pos_facts (ann : List AnnNode) (L : List (Nat × Node)) :
    ∀ n : Nat,
      (∀ pr ∈ L.enumFrom n, rowExplicitPos ann pr.2.1 pr.2.2 = none) →
      (∀ e ∈ (L.enumFrom n).filterMap
          (fun pr => extractRow ann pr.2.1 pr.2.2 pr.1), n + 1 ≤ e.position) ∧
      (((L.enumFrom n).filterMap
          (fun pr => extractRow ann pr.2.1 pr.2.2 pr.1)).map
            (fun e => e.position)).Pairwise (· < ·) := by
  induction L with
  | nil => intro n _; simp
  | cons hd tl ih =>
    intro n hnone
    have hhd : rowExplicitPos ann hd.1 hd.2 = none :=
      hnone (n, hd) (by simp [List.enumFrom])
    have htl := ih (n + 1) fun pr hpr => hnone pr (by simp [List.enumFrom, hpr])
    simp only [List.enumFrom, List.filterMap_cons]
    cases hx : extractRow ann hd.1 hd.2 n with
    | none =>
      refine ⟨fun e he => ?_, htl.2⟩
      have := htl.1 e he
      omega
    | some e0 =>
      have hpos : e0.position = n + 1 := by
        have := (extractRow_some hx).1
        rw [hhd] at this
        simpa using this
      constructor
      · intro e he
        rcases List.mem_cons.mp he with rfl | he
        · omega
        · have := htl.1 e he
          omega
      · rw [List.map_cons, List.pairwise_cons]
        refine ⟨fun b hb => ?_, htl.2⟩
        rw [List.mem_map] at hb
        obtain ⟨e, he, rfl⟩ := hb
        have := htl.1 e he
        omega

lemma filterMap_enumFrom_consec (ann : List AnnNode) (L : List (Nat × Node)) :
    ∀ n : Nat,
      (∀ pr ∈ L.enumFrom n, ∀ e, extractRow ann pr.2.1 pr.2.2 pr.1 = some e →
          e.position = pr.1 + 1) →
      (∀ pr ∈ L.enumFrom n, extractRow ann pr.2.1 pr.2.2 pr.1 ≠ none) →
      ((L.enumFrom n).filterMap
          (fun pr => extractRow ann pr.2.1 pr.2.2 pr.1)).map (fun e => e.position) =
        natSeq (n + 1) L.length := by
  induction L with
  | nil => intro n _ _; simp [natSeq]
  | cons hd tl ih =>
    intro n hpos hsome
    have hmem : (n, hd) ∈ (hd :: tl).enumFrom n := by simp [List.enumFrom]
    cases hx : extractRow ann hd.1 hd.2 n with
    | none => exact absurd hx (hsome (n, hd) hmem)
    | some e0 =>
      have he0 : e0.position = n + 1 := hpos (n, hd) hmem e0 hx
      have htl := ih (n + 1)
        (fun pr hpr => hpos pr (by simp [List.enumFrom, hpr]))
        (fun pr hpr => hsome pr (by simp [List.enumFrom, hpr]))
      simp only [List.enumFrom, List.filterMap_cons, hx, List.map_cons,
        List.length_cons, natSeq, he0]
      exact congrArg ((n + 1) :: ·) (by simpa using htl)

/-! ## Example documents -/

/-- A well-formed chart row with an explicit rank label in its first
`span.c-label`. -/
def mkRowL (label title artist : String) : Node :=
  Node.elem "ul" ["o-chart-results-list-row"]
    [Node.elem "span" ["c-label"] [Node.textNode label],
     Node.elem "h3" ["c-title"] [Node.textNode title],
     Node.elem "span" ["c-label"] [Node.textNode artist]]

/-- A well-formed chart row without any rank label: its only
`span.c-label` holds the artist, so the ordinal position is used. -/
def mkRowNL (title artist : String) : Node :=
  Node.elem "ul" ["o-chart-results-list-row"]
    [Node.elem "h3" ["c-title"] [Node.textNode title],
     Node.elem "span" ["c-label"] [Node.textNode artist]]

/-- A document with no chart rows at all. -/
def exC1soup : Node := Node.textNode "no structural chart rows here"

/-- A document whose flattened text drives the fallback into emitting a
title with an internal double space. -/
def exC3soup : Node :=
  Node.elem "html" [] [Node.textNode "1\nAbc  Def\nSomeartist"]

/-- A document with one well-formed primary row. -/
def exC3w : Node := Node.elem "html" [] [mkRowNL "Song One" "Artist One"]

/-- Two rows both carrying the explicit rank label "0". -/
def exC4soup : Node :=
  Node.elem "html" [] [mkRowL "0" "Song A" "Artist A", mkRowL "0" "Song B" "Artist B"]

/-- Two label-free rows. -/
def exC4w : Node :=
  Node.elem "html" [] [mkRowNL "Song A" "Artist A", mkRowNL "Song B" "Artist B"]

/-- Ten well-formed rows, the first carrying the explicit (and
disagreeing) rank label "99". -/
def exC5soup : Node :=
  Node.elem "html" []
    (mkRowL "99" "Song One" "Artist One" ::
      (["Two", "Three", "Four", "Five", "Six", "Seven", "Eight", "Nine",
        "Ten"].map fun s => mkRowNL ("Song " ++ s) ("Artist " ++ s)))

/-- Ten well-formed label-free rows. -/
def exC5w : Node :=
  Node.elem "html" []
    (["One", "Two", "Three", "Four", "Five", "Six", "Seven", "Eight",
      "Nine", "Ten"].map fun s => mkRowNL ("Song " ++ s) ("Artist " ++ s))

/-- A row whose `LW` marker is followed by a `span.c-label` holding "0". -/
def exC6soup : Node :=
  Node.elem "html" []
    [Node.elem "ul" ["o-chart-results-list-row"]
      [Node.elem "span" ["c-label"] [Node.textNode "1"],
       Node.elem "h3" ["c-title"] [Node.textNode "Song"],
       Node.elem "span" ["c-label"] [Node.textNode "Artist"],
       Node.elem "div" [] [Node.textNode "LW"],
       Node.elem "span" ["c-label"] [Node.textNode "0"]]]

/-- A document whose flattened text feeds the fallback two anchors. -/
def exC10soup : Node :=
  Node.elem "html" []
    [Node.textNode "1\nFirst Song\nFirst Artist\n2\nSecond Song\nSecond Artist"]

/-! ## Claims -/

/-- Claim C1: for every fetched document, if the primary (structural)
extraction yields at least 10 entries its result is returned outright;
if it yields fewer than 10, the fallback strategy is invoked on the same
document and its result — and only its result, never a merge — is
returned. -/
theorem c1_fallback_policy (soup : Node) :
    (10 ≤ (primaryExtract soup).length →
      scrape_billboard_india (some soup) = primaryExtract soup) ∧
    ((primaryExtract soup).length < 10 →
      scrape_billboard_india (some soup) = scrape_billboard_alternative soup) := by
  constructor
  · intro h
    simp [scrape_billboard_india, Nat.not_lt.mpr h]
  · intro h
    simp [scrape_billboard_india, h]

/-- Witness for C1 at a concrete document: the primary strategy yields
fewer than 10 entries and the fallback's result is returned. -/
theorem c1_fallback_policy_witness :
    (primaryExtract exC1soup).length < 10 ∧
    scrape_billboard_india (some exC1soup) = scrape_billboard_alternative exC1soup :=
  ⟨by decide, (c1_fallback_policy exC1soup).2 (by decide)⟩

/-- Claim C2: for any parsed document the extractor returns at most 20
entries, under both the primary strategy and the fallback strategy. -/
theorem c2_result_cap (soup : Node) :
    (primaryExtract soup).length ≤ 20 ∧
    (scrape_billboard_alternative soup).length ≤ 20 := by
  refine ⟨primary_length_le soup, ?_⟩
  have h := altLoop_length (linesOf soup) 1
  simpa [scrape_billboard_alternative] using h

/-- Witness for C2 at a concrete document. -/
theorem c2_result_cap_witness :
    (primaryExtract exC10soup).length ≤ 20 ∧
    (scrape_billboard_alternative exC10soup).length ≤ 20 :=
  c2_result_cap exC10soup

/-- Claim C7: in the fallback's look-ahead window, a line is accepted as
the title exactly when it is not a non-content token, not purely
numeric, longer than 3 characters, does not start with a URL scheme, and
is title-shaped (parenthesis, title-case, or a title-cased word); the
first such line of the window is taken. -/
theorem c7_title_selection (ws : List String) :
    (windowLoop ws none none).1 = ws.find? titleAccept :=
  windowLoop_fst_none ws none

/-- Witness for C7 on a concrete window: the first accepted line is
selected, skipping tokens, numerics, short lines and URLs. -/
theorem c7_title_selection_witness :
    (windowLoop ["LW", "12", "ab", "http://example.com", "-",
        "Great Song (feat. Someone)", "An Artist"] none none).1 =
      (["LW", "12", "ab", "http://example.com", "-",
        "Great Song (feat. Someone)", "An Artist"] : List String).find? titleAccept :=
  c7_title_selection _

/-- Claim C8: for a numeric previous position the rendered trend is
"moved up" exactly when the current position is smaller, "moved down"
exactly when larger, "unchanged" exactly when equal; a previous position
of "NEW" renders as a new entry. -/
theorem c8_trend_classification (p : Nat) (lw : String) :
    (pyIsDigit lw = true →
      (lastWeekTrend p lw = Trend.up ↔ p < pyToNat lw) ∧
      (lastWeekTrend p lw = Trend.down ↔ pyToNat lw < p) ∧
      (lastWeekTrend p lw = Trend.same ↔ p = pyToNat lw)) ∧
    lastWeekTrend p "NEW" = Trend.newEntry := by
  constructor
  · intro hd
    have hne : lw ≠ "NEW" := by
      intro he
      rw [he] at hd
      exact absurd hd (by decide)
    unfold lastWeekTrend
    rw [if_neg hne, if_pos hd]
    rcases Nat.lt_trichotomy p (pyToNat lw) with h | h | h
    · simp [h, Nat.lt_asymm h, Nat.ne_of_lt h]
    · simp [h, Nat.lt_irrefl]
    · simp [Nat.lt_asymm h, h, (Nat.ne_of_lt h).symm]
  · simp [lastWeekTrend]

/-- Witness for C8 at the spec's four examples. -/
theorem c8_trend_classification_witness :
    lastWeekTrend 2 "5" = Trend.up ∧ lastWeekTrend 7 "3" = Trend.down ∧
    lastWeekTrend 4 "4" = Trend.same ∧ lastWeekTrend 4 "NEW" = Trend.newEntry :=
  ⟨(((c8_trend_classification 2 "5").1 (by decide)).1).mpr (by decide),
   (((c8_trend_classification 7 "3").1 (by decide)).2.1).mpr (by decide),
   (((c8_trend_classification 4 "4").1 (by decide)).2.2).mpr (by decide),
   (c8_trend_classification 4 "NEW").2⟩

/-- Claim C9: when the fetch fails, the extractor returns an explicitly
empty result, the process exits with a non-zero status, and no delivery
is ever attempted. -/
theorem c9_fetch_failure (sendOk : Bool) :
    scrape_billboard_india none = [] ∧
    (mainResult none sendOk).1 = 1 ∧ (mainResult none sendOk).2 = false :=
  ⟨rfl, rfl, rfl⟩

/-- Witness for C9 at a concrete delivery outcome. -/
theorem c9_fetch_failure_witness :
    scrape_billboard_india none = [] ∧
    (mainResult none true).1 = 1 ∧ (mainResult none true).2 = false :=
  c9_fetch_failure true

/-- The positions of a result are exactly `1, 2, ..., n` in emission
order. -/
def consecFromOne (l : List ChartEntry) : Prop :=
  l.map (fun e => e.position) = natSeq 1 l.length

/-- Claim C10: the fallback strategy's result always has positions
exactly `1, 2, ..., n` in emission order with no gaps: the expected-rank
counter advances only on emission and anchors must equal it exactly. -/
theorem c10_fallback_consecutive (soup : Node) :
    consecFromOne (scrape_billboard_alternative soup) := by
  unfold consecFromOne scrape_billboard_alternative
  exact altLoop_positions (linesOf soup) 1

/-- Witness for C10 at a concrete document with two anchors. -/
theorem c10_fallback_consecutive_witness :
    consecFromOne (scrape_billboard_alternative exC10soup) :=
  c10_fallback_consecutive exC10soup

/-- Claim C3, counterexample: the fallback emits into the final result a
title with an internal double space, which is therefore not
whitespace-collapsed. -/
theorem c3_counterexample :
    scrape_billboard_india (some exC3soup) =
      [⟨1, "Abc  Def", "Someartist", "NEW"⟩] ∧
    wsCollapsedB "Abc  Def" = false :=
  ⟨by decide, by decide⟩

/-- Claim C3 as amended: every emitted entry's title is non-empty and
not "N/A"; titles from the primary strategy are additionally fully
whitespace-collapsed, while fallback titles are only guaranteed to be
trimmed at both ends (internal whitespace runs survive). -/
theorem c3_amended (soup : Node) :
    (∀ e ∈ primaryExtract soup,
        e.song ≠ "" ∧ e.song ≠ "N/A" ∧ wsCollapsedB e.song = true) ∧
    (∀ e ∈ scrape_billboard_alternative soup,
        e.song ≠ "" ∧ e.song ≠ "N/A" ∧ endsTrimmedB e.song = true) := by
  constructor
  · intro e he
    obtain ⟨i, g, row, hx⟩ := primary_mem he
    obtain ⟨_, hsong, hna, hne, _⟩ := extractRow_some hx
    exact ⟨hne, hna, by rw [hsong]; exact wsCollapsed_collapseWS _⟩
  · intro e he
    obtain ⟨_, hlen, hmem⟩ :=
      altLoop_mem (by simpa [scrape_billboard_alternative] using he)
    have hne : e.song ≠ "" := by
      intro h0
      rw [h0] at hlen
      exact absurd hlen (by decide)
    have hna : e.song ≠ "N/A" := by
      intro h0
      rw [h0] at hlen
      exact absurd hlen (by decide)
    have hstrip : ∃ y, e.song = pyStrip y := by
      unfold linesOf at hmem
      rw [List.mem_filter] at hmem
      obtain ⟨hm, _⟩ := hmem
      rw [List.mem_map] at hm
      obtain ⟨y, _, hy⟩ := hm
      exact ⟨y, hy.symm⟩
    obtain ⟨y, hy⟩ := hstrip
    exact ⟨hne, hna, by rw [hy]; exact endsTrimmed_pyStrip y⟩

/-- Witness for the amended C3 at a concrete primary entry. -/
theorem c3_amended_witness :
    (⟨1, "Song One", "Artist One", "NEW"⟩ : ChartEntry) ∈ primaryExtract exC3w ∧
    (("Song One" : String) ≠ "" ∧ ("Song One" : String) ≠ "N/A" ∧
      wsCollapsedB "Song One" = true) :=
  ⟨by decide, (c3_amended exC3w).1 ⟨1, "Song One", "Artist One", "NEW"⟩ (by decide)⟩

/-- Claim C4, counterexample: with explicit rank labels "0" on two rows
the primary strategy emits positions `[0, 0]` — neither pairwise unique
nor positive. -/
theorem c4_counterexample :
    (primaryExtract exC4soup).map (fun e => e.position) = [0, 0] ∧
    ¬ ((primaryExtract exC4soup).map (fun e => e.position)).Nodup ∧
    ¬ (∀ e ∈ primaryExtract exC4soup, 0 < e.position) :=
  ⟨by decide, by decide, by decide⟩

/-- Claim C4 as amended: fallback positions are always positive and
pairwise unique; primary positions are positive and pairwise unique
whenever no considered row carries an explicit numeric rank label (all
positions then being ordinals). -/
theorem c4_amended (soup : Node) :
    (((scrape_billboard_alternative soup).map (fun e => e.position)).Nodup ∧
      (∀ e ∈ scrape_billboard_alternative soup, 0 < e.position)) ∧
    ((∀ pr ∈ ((chartRows (annotTree soup)).take 20).enum,
        rowExplicitPos (annotTree soup) pr.2.1 pr.2.2 = none) →
      ((primaryExtract soup).map (fun e => e.position)).Nodup ∧
      (∀ e ∈ primaryExtract soup, 0 < e.position)) := by
  constructor
  · constructor
    · rw [show (scrape_billboard_alternative soup).map (fun e => e.position) =
          natSeq 1 (scrape_billboard_alternative soup).length from
          altLoop_positions (linesOf soup) 1]
      exact natSeq_nodup _ _
    · intro e he
      have hm : e.position ∈
          (scrape_billboard_alternative soup).map (fun e => e.position) :=
        List.mem_map.mpr ⟨e, he, rfl⟩
      rw [show (scrape_billboard_alternative soup).map (fun e => e.position) =
          natSeq 1 (scrape_billboard_alternative soup).length from
          altLoop_positions (linesOf soup) 1] at hm
      exact le_of_mem_natSeq hm
  · intro hnone
    have hfacts := filterMap_enumFrom_pos_facts (annotTree soup)
      ((chartRows (annotTree soup)).take 20) 0 (by simpa [List.enum] using hnone)
    constructor
    · have hpw := hfacts.2
      unfold primaryExtract
      simp only [List.enum] at hpw ⊢
      exact hpw.imp Nat.ne_of_lt
    · intro e he
      have he2 : e ∈ (((chartRows (annotTree soup)).take 20).enumFrom 0).filterMap
          (fun pr => extractRow (annotTree soup) pr.2.1 pr.2.2 pr.1) := by
        unfold primaryExtract at he
        simpa [List.enum] using he
      exact hfacts.1 e he2

/-- Witness for the amended C4 at a concrete two-row label-free
document. -/
theorem c4_amended_witness :
    (∀ pr ∈ ((chartRows (annotTree exC4w)).take 20).enum,
        rowExplicitPos (annotTree exC4w) pr.2.1 pr.2.2 = none) ∧
    (((primaryExtract exC4w).map (fun e => e.position)).Nodup ∧
      (∀ e ∈ primaryExtract exC4w, 0 < e.position)) :=
  ⟨by decide, (c4_amended exC4w).2 (by decide)⟩

/-- Claim C5, counterexample: even when the primary result is the one
returned (10 entries), an explicit rank label ("99" on the first row)
wins over the ordinal index and the positions are not consecutive
starting at 1. -/
theorem c5_counterexample :
    10 ≤ (primaryExtract exC5soup).length ∧
    scrape_billboard_india (some exC5soup) = primaryExtract exC5soup ∧
    (scrape_billboard_india (some exC5soup)).map (fun e => e.position) =
      [99, 2, 3, 4, 5, 6, 7, 8, 9, 10] ∧
    ¬ consecFromOne (scrape_billboard_india (some exC5soup)) :=
  ⟨by decide, by decide, by decide, by unfold consecFromOne; decide⟩

/-- Claim C5 as amended: when the primary result is the one returned,
its positions are consecutive starting at 1 provided no considered row
is discarded and every explicit rank label that is read agrees with the
row's ordinal index; a disagreeing label (or a discarded row) breaks
consecutiveness. -/
theorem c5_amended (soup : Node)
    (h1 : ∀ pr ∈ ((chartRows (annotTree soup)).take 20).enum,
        rowExplicitPos (annotTree soup) pr.2.1 pr.2.2 = none ∨
        rowExplicitPos (annotTree soup) pr.2.1 pr.2.2 = some (pr.1 + 1))
    (h2 : ∀ pr ∈ ((chartRows (annotTree soup)).take 20).enum,
        extractRow (annotTree soup) pr.2.1 pr.2.2 pr.1 ≠ none)
    (h3 : 10 ≤ (primaryExtract soup).length) :
    scrape_billboard_india (some soup) = primaryExtract soup ∧
    consecFromOne (primaryExtract soup) := by
  refine ⟨by simp [scrape_billboard_india, Nat.not_lt.mpr h3], ?_⟩
  have hpos : ∀ pr ∈ ((chartRows (annotTree soup)).take 20).enumFrom 0,
      ∀ e, extractRow (annotTree soup) pr.2.1 pr.2.2 pr.1 = some e →
        e.position = pr.1 + 1 := by
    intro pr hpr e hx
    have hp := (extractRow_some hx).1
    rcases h1 pr (by simpa [List.enum] using hpr) with hh | hh <;>
      rw [hh] at hp <;> simpa using hp
  have hmap := filterMap_enumFrom_consec (annotTree soup)
    ((chartRows (annotTree soup)).take 20) 0 hpos
    (fun pr hpr => h2 pr (by simpa [List.enum] using hpr))
  have hmap2 : (primaryExtract soup).map (fun e => e.position) =
      natSeq 1 ((chartRows (annotTree soup)).take 20).length := by
    unfold primaryExtract
    simpa [List.enum] using hmap
  have hlen : (primaryExtract soup).length =
      ((chartRows (annotTree soup)).take 20).length := by
    have := congrArg List.length hmap2
    simpa [List.length_map, natSeq_length] using this
  unfold consecFromOne
  rw [hmap2, hlen]

/-- Witness for the amended C5 at a concrete ten-row label-free
document. -/
theorem c5_amended_witness :
    scrape_billboard_india (some exC5w) = primaryExtract exC5w ∧
    consecFromOne (primaryExtract exC5w) :=
  c5_amended exC5w (by decide) (by decide) (by decide)

/-- Decimal text of a positive integer, the spec's data-model shape for
a prior rank. -/
def posIntText (s : String) : Prop := pyIsDigit s = true ∧ 0 < pyToNat s

/-- Claim C6, counterexample: an `LW` field holding "0" is emitted
verbatim as the previous position — a value that is neither the decimal
text of a positive integer nor the sentinel "NEW". -/
theorem c6_counterexample :
    (primaryExtract exC6soup).map (fun e => e.lastWeek) = ["0"] ∧
    ¬ posIntText "0" ∧ ("0" : String) ≠ "NEW" :=
  ⟨by decide, by unfold posIntText; decide, by decide⟩

/-- Claim C6 as amended: every primary entry's previous position is
either a digit string (possibly denoting zero) or the sentinel "NEW";
fallback entries always carry "NEW". -/
theorem c6_amended (soup : Node) :
    (∀ e ∈ primaryExtract soup,
        pyIsDigit e.lastWeek = true ∨ e.lastWeek = "NEW") ∧
    (∀ e ∈ scrape_billboard_alternative soup, e.lastWeek = "NEW") := by
  constructor
  · intro e he
    obtain ⟨i, g, row, hx⟩ := primary_mem he
    obtain ⟨_, _, _, _, hlw⟩ := extractRow_some hx
    rw [hlw]
    exact rowLastWeek_shape _ _ _
  · intro e he
    exact (altLoop_mem (by simpa [scrape_billboard_alternative] using he)).1

/-- Witness for the amended C6 at the concrete `LW = "0"` document. -/
theorem c6_amended_witness :
    (⟨1, "Song", "Artist", "0"⟩ : ChartEntry) ∈ primaryExtract exC6soup ∧
    (pyIsDigit "0" = true ∨ ("0" : String) = "NEW") :=
  ⟨by decide, (c6_amended exC6soup).1 ⟨1, "Song", "Artist", "0"⟩ (by decide)⟩
